import Mathlib

/-!
Verification development for the cross-shard message pool of the ontology
repository (package `xshard`, file modelled below as the `XShard` namespace)
and the shard-management event decoding (package `shardstates`).

The Go code is shallowly embedded: Go maps become association lists, the
durable ledger store becomes an explicit `Ledger` record threaded through
every operation, fallible store operations return `Except`/`LRes` results,
and the two unbounded `for {}` walks are given an explicit fuel parameter
(`none` = fuel exhausted, witnessing a non-terminating walk).
-/

deriving instance DecidableEq for Except

namespace XShard

/-- Association-list lookup (models Go map read `m[k]`). -/
def alookup {κ : Type} [DecidableEq κ] {α : Type} (k : κ) : List (κ × α) → Option α
  | [] => none
  | (k', v) :: t => if k = k' then some v else alookup k t

/-- Association-list insert/replace (models Go map write `m[k] = v`):
replaces the binding in place if the key is present, appends otherwise. -/
def ainsert {κ : Type} [DecidableEq κ] {α : Type} (k : κ) (v : α) : List (κ × α) → List (κ × α)
  | [] => [(k, v)]
  | (k', v') :: t => if k = k' then (k, v) :: t else (k', v') :: ainsert k v t

/-- Association-list delete (models Go `delete(m, k)`): removes every
binding of the key. -/
def aerase {κ : Type} [DecidableEq κ] {α : Type} (k : κ) (l : List (κ × α)) : List (κ × α) :=
  l.filter (fun p => p.1 ≠ k)

/-- Result of a fallible durable-store read: found, not-found
(`com.ErrNotFound` in Go), or a hard storage failure. -/
inductive LRes (α : Type) where
  | ok (a : α)
  | notFound
  | fail (e : String)
deriving DecidableEq, Repr

/-- Header of a cross-shard message (`types.CrossShardMsgInfo`): origin
shard, height, the backward hash link and the forward hash link. Hashes
(`common.Uint256`) are modelled as `Nat`, the zero value as `0`. -/
structure CrossShardMsgInfo where
  FromShardID : Nat
  MsgHeight : Nat
  PreCrossShardMsgHash : Nat
  CrossShardMsgRoot : Nat
deriving DecidableEq, Repr

/-- A cross-shard message (`types.CrossShardMsg`): header plus an opaque
shard-message payload (modelled as `Nat`). -/
structure CrossShardMsg where
  Info : CrossShardMsgInfo
  ShardMsg : Nat
deriving DecidableEq, Repr

/-- One outbound transaction produced by collection
(`types.CrossShardTxInfos`): the message header it was built from and the
opaque built transaction. -/
structure CrossShardTxInfos where
  ShardMsg : CrossShardMsgInfo
  Tx : Nat
deriving DecidableEq, Repr

/-- Parent-shard ledger handle: shard-message batches indexed by
(height, shardID), with hard-error injection for `GetShardMsgsInBlock`. -/
structure ParentLedger where
  shardMsgs : List ((Nat × Nat) × Nat)
  getErrs : List (Nat × Nat)
deriving DecidableEq, Repr

/-- The durable ledger store consumed by the pool, as explicit data:
the saved shard-id set, the per-shard last-consumed hash pointer, the
content-addressed message store, plus failure-injection sets for each
fallible operation. -/
structure Ledger where
  allShardIDs : LRes (List Nat)
  hashPtrs : List (Nat × Nat)
  getHashErrs : List Nat
  msgs : List (Nat × CrossShardMsg)
  getMsgErrs : List Nat
  saveMsgFails : List Nat
  saveHashFails : List Nat
  saveShardIDsFails : Bool
  parent : Option ParentLedger
deriving DecidableEq, Repr

/-- Ledger read `GetCrossShardMsgByHash`. -/
def Ledger.GetCrossShardMsgByHash (L : Ledger) (h : Nat) : LRes CrossShardMsg :=
  if h ∈ L.getMsgErrs then .fail "GetCrossShardMsgByHash: store failure"
  else
    match alookup h L.msgs with
    | some m => .ok m
    | none => .notFound

/-- Ledger read `GetCrossShardHash` (the per-shard last-consumed pointer). -/
def Ledger.GetCrossShardHash (L : Ledger) (sid : Nat) : LRes Nat :=
  if sid ∈ L.getHashErrs then .fail "GetCrossShardHash: store failure"
  else
    match alookup sid L.hashPtrs with
    | some h => .ok h
    | none => .notFound

/-- Ledger write `SaveCrossShardMsgByHash`; returns the updated store or a
failure. -/
def Ledger.SaveCrossShardMsgByHash (L : Ledger) (h : Nat) (m : CrossShardMsg) :
    Except String Ledger :=
  if h ∈ L.saveMsgFails then .error "SaveCrossShardMsgByHash: store failure"
  else .ok { L with msgs := ainsert h m L.msgs }

/-- Ledger write `SaveCrossShardHash` for the last-consumed pointer. -/
def Ledger.SaveCrossShardHashStore (L : Ledger) (sid : Nat) (h : Nat) :
    Except String Ledger :=
  if sid ∈ L.saveHashFails then .error "SaveCrossShardHash: store failure"
  else .ok { L with hashPtrs := ainsert sid h L.hashPtrs }

/-- Ledger write `SaveAllShardIDs`. -/
def Ledger.SaveAllShardIDs (L : Ledger) (ids : List Nat) : Except String Ledger :=
  if L.saveShardIDsFails then .error "SaveAllShardIDs: store failure"
  else .ok { L with allShardIDs := .ok ids }

/-- Parent-ledger read `GetShardMsgsInBlock`. -/
def ParentLedger.GetShardMsgsInBlock (PL : ParentLedger) (height : Nat) (sid : Nat) :
    LRes Nat :=
  if (height, sid) ∈ PL.getErrs then .fail "GetShardMsgsInBlock: store failure"
  else
    match alookup (height, sid) PL.shardMsgs with
    | some b => .ok b
    | none => .notFound

/-- The in-memory cross-shard pool (`CrossShardPool`): per-source-shard map
of pending messages keyed by `PreCrossShardMsgHash`, and the known-shard
set. The `sync.RWMutex` serialises access in Go; the embedding is
sequential, so each operation acts on the state atomically. -/
structure CrossShardPool where
  ShardID : Nat
  Shards : List (Nat × List (Nat × CrossShardMsg))
  MaxBlockCap : Nat
  ShardInfo : List Nat
deriving DecidableEq, Repr

/-- `InitCrossShardPool`: fresh, empty pool state. -/
def InitCrossShardPool (shardID : Nat) (historyCap : Nat) : CrossShardPool :=
  { ShardID := shardID, Shards := [], ShardInfo := [], MaxBlockCap := historyCap }

/-- `GetCrossShardHashByShardID`: thin wrapper over the ledger read. -/
def GetCrossShardHashByShardID (L : Ledger) (sid : Nat) : LRes Nat :=
  L.GetCrossShardHash sid

/-- `SaveCrossShardHash`: thin wrapper over the ledger write. -/
def SaveCrossShardHash (L : Ledger) (sid : Nat) (h : Nat) : Except String Ledger :=
  L.SaveCrossShardHashStore sid h

/-- `AddShardInfo`: no-op when the shard is already known; otherwise mark
it known and persist the updated set, logging (and absorbing) any save
failure. -/
def AddShardInfo (L : Ledger) (P : CrossShardPool) (sid : Nat) :
    CrossShardPool × Ledger :=
  if sid ∈ P.ShardInfo then (P, L)
  else
    let P' := { P with ShardInfo := P.ShardInfo ++ [sid] }
    match L.SaveAllShardIDs P'.ShardInfo with
    | .ok L' => (P', L')
    | .error _ => (P', L)

/-- `AddCrossShardInfo`: ingestion of one inbound message. Locates or
creates the per-source-shard map; an entry already present at the message's
`PreCrossShardMsgHash` returns success at once; otherwise the message is
put in the in-memory map, persisted by that hash, the last-consumed pointer
is initialised when absent, and the shard is marked known. -/
def AddCrossShardInfo (L : Ledger) (P : CrossShardPool) (msg : CrossShardMsg) :
    Except String Unit × CrossShardPool × Ledger :=
  let fromShardID := msg.Info.FromShardID
  let pre := msg.Info.PreCrossShardMsgHash
  let shards0 :=
    if (alookup fromShardID P.Shards).isSome then P.Shards
    else ainsert fromShardID [] P.Shards
  let m := (alookup fromShardID shards0).getD []
  if (alookup pre m).isSome then
    (.ok (), { P with Shards := shards0 }, L)
  else
    let P1 := { P with Shards := ainsert fromShardID (ainsert pre msg m) shards0 }
    match L.SaveCrossShardMsgByHash pre msg with
    | .error e => (.error e, P1, L)
    | .ok L1 =>
      match GetCrossShardHashByShardID L1 fromShardID with
      | .fail e => (.error e, P1, L1)
      | .ok _ =>
        let PL2 := AddShardInfo L1 P1 fromShardID
        (.ok (), PL2.1, PL2.2)
      | .notFound =>
        match SaveCrossShardHash L1 fromShardID pre with
        | .error e => (.error e, P1, L1)
        | .ok L2 =>
          let PL3 := AddShardInfo L2 P1 fromShardID
          (.ok (), PL3.1, PL3.2)

/-- Inner recovery walk of `InitShardInfo` for one shard, with explicit
fuel for the unbounded `for {}` loop (`none` = fuel exhausted). Fetches
the message at the current hash; a hard store failure aborts, not-found
ends the walk; an entry already present at the message's
`PreCrossShardMsgHash` does `continue` with the current hash unchanged;
otherwise the message is inserted keyed by its `PreCrossShardMsgHash` and
the current hash becomes its `CrossShardMsgRoot`. -/
def InitWalk (L : Ledger) (sid : Nat) :
    Nat → List (Nat × List (Nat × CrossShardMsg)) → Nat →
    Option (Except String (List (Nat × List (Nat × CrossShardMsg))))
  | 0, _, _ => none
  | fuel + 1, shards, msgHash =>
    match L.GetCrossShardMsgByHash msgHash with
    | .fail e => some (.error e)
    | .notFound => some (.ok shards)
    | .ok msg =>
      let shards1 :=
        if (alookup sid shards).isSome then shards else ainsert sid [] shards
      let m := (alookup sid shards1).getD []
      if (alookup msg.Info.PreCrossShardMsgHash m).isSome then
        InitWalk L sid fuel shards1 msgHash
      else
        InitWalk L sid fuel
          (ainsert sid (ainsert msg.Info.PreCrossShardMsgHash msg m) shards1)
          msg.Info.CrossShardMsgRoot

/-- Per-shard enumeration of `InitShardInfo`: mark the shard known, fetch
its persisted pointer — a hard failure aborts, a not-found pointer does
`break`, ending the whole enumeration with success — then run the inner
walk from the pointer. -/
def InitShardsLoop (L : Ledger) :
    List Nat → CrossShardPool → Nat → Option (Except String CrossShardPool)
  | [], P, _ => some (.ok P)
  | sid :: rest, P, fuel =>
    let P1 :=
      { P with ShardInfo :=
          if sid ∈ P.ShardInfo then P.ShardInfo else P.ShardInfo ++ [sid] }
    match GetCrossShardHashByShardID L sid with
    | .fail e => some (.error e)
    | .notFound => some (.ok P1)
    | .ok msgHash =>
      match InitWalk L sid fuel P1.Shards msgHash with
      | none => none
      | some (.error e) => some (.error e)
      | some (.ok shards') => InitShardsLoop L rest { P1 with Shards := shards' } fuel

/-- `InitShardInfo`: rebuild the in-memory pool from the durable store.
Enumerates the saved shard ids (a not-found set is treated as empty) and
runs the per-shard recovery loop. -/
def InitShardInfo (L : Ledger) (P : CrossShardPool) (fuel : Nat) :
    Option (Except String CrossShardPool) :=
  match L.allShardIDs with
  | .fail e => some (.error e)
  | .notFound => some (.ok P)
  | .ok ids => InitShardsLoop L ids P fuel

/-- Modelled from the spec: the recovery walk as §4.2 of the specification
describes it, for comparison with `InitWalk` above — insert the fetched
message keyed by its `PreCrossShardMsgHash`, then set the current hash to
that message's `PreCrossShardMsgHash` (walk backward); an already-present
hash short-circuits the walk for that shard. -/
def SpecWalkBackward (L : Ledger) (sid : Nat) :
    Nat → List (Nat × List (Nat × CrossShardMsg)) → Nat →
    Option (Except String (List (Nat × List (Nat × CrossShardMsg))))
  | 0, _, _ => none
  | fuel + 1, shards, msgHash =>
    match L.GetCrossShardMsgByHash msgHash with
    | .fail e => some (.error e)
    | .notFound => some (.ok shards)
    | .ok msg =>
      let shards1 :=
        if (alookup sid shards).isSome then shards else ainsert sid [] shards
      let m := (alookup sid shards1).getD []
      if (alookup msg.Info.PreCrossShardMsgHash m).isSome then
        some (.ok shards1)
      else
        SpecWalkBackward L sid fuel
          (ainsert sid (ainsert msg.Info.PreCrossShardMsgHash msg m) shards1)
          msg.Info.PreCrossShardMsgHash

/-- Modelled from the spec: per-shard recovery enumeration as §4.2
describes it — a missing pointer terminates only that shard's processing,
and every enumerated shard is marked known. -/
def SpecInitLoopBackward (L : Ledger) :
    List Nat → CrossShardPool → Nat → Option (Except String CrossShardPool)
  | [], P, _ => some (.ok P)
  | sid :: rest, P, fuel =>
    let P1 :=
      { P with ShardInfo :=
          if sid ∈ P.ShardInfo then P.ShardInfo else P.ShardInfo ++ [sid] }
    match GetCrossShardHashByShardID L sid with
    | .fail e => some (.error e)
    | .notFound => SpecInitLoopBackward L rest P1 fuel
    | .ok msgHash =>
      match SpecWalkBackward L sid fuel P1.Shards msgHash with
      | none => none
      | some (.error e) => some (.error e)
      | some (.ok shards') =>
        SpecInitLoopBackward L rest { P1 with Shards := shards' } fuel

/-- Modelled from the spec: `InitShardInfo` as the specification describes
it (backward walk via `PreCrossShardMsgHash`, per-shard termination on a
missing pointer). -/
def SpecInitShardInfo (L : Ledger) (P : CrossShardPool) (fuel : Nat) :
    Option (Except String CrossShardPool) :=
  match L.allShardIDs with
  | .fail e => some (.error e)
  | .notFound => some (.ok P)
  | .ok ids => SpecInitLoopBackward L ids P fuel

/-- Validity and hierarchy of shard ids (`common.NewShardID`,
`ShardID.IsRootShard`, `ShardID.ParentID` live outside this package);
passed in as an abstract parameter. -/
structure ShardIDModel where
  isRoot : Nat → Bool
  parentID : Nat → Nat
  newOk : Nat → Bool

/-- Forward collection walk of `GetCrossShardTxs` for one shard's
in-memory map, with fuel. Looks the current hash up in the in-memory map
first, then in the durable store; not-found ends the walk, a hard store
failure aborts the whole call; each message found is appended and the
current hash becomes its `CrossShardMsgRoot`. -/
def CollectShard (L : Ledger) (m : List (Nat × CrossShardMsg)) :
    Nat → Nat → Option (Except String (List CrossShardMsg))
  | _, 0 => none
  | msgHash, fuel + 1 =>
    match alookup msgHash m with
    | some shardMsg =>
      (CollectShard L m shardMsg.Info.CrossShardMsgRoot fuel).map
        (fun r => r.map (fun l => shardMsg :: l))
    | none =>
      match L.GetCrossShardMsgByHash msgHash with
      | .fail e => some (.error e)
      | .notFound => some (.ok [])
      | .ok msg =>
        (CollectShard L m msg.Info.CrossShardMsgRoot fuel).map
          (fun r => r.map (fun l => msg :: l))

/-- Per-shard transaction building of `GetCrossShardTxs`: the external
builder (`crossshard.NewCrossShardTxMsg`) is passed in; a builder failure
does `break`, keeping the transactions built so far for that shard. -/
def BuildTxs (builder : Nat → Nat → Nat → Except String Nat) (fromShardID : Nat) :
    List CrossShardMsg → List CrossShardTxInfos
  | [] => []
  | msg :: rest =>
    match builder msg.Info.MsgHeight fromShardID msg.ShardMsg with
    | .error _ => []
    | .ok tx => { ShardMsg := msg.Info, Tx := tx } :: BuildTxs builder fromShardID rest

/-- Loop of `GetCrossShardTxs` over the pool's per-shard maps: an invalid
shard id or a hard pointer-read failure skips that shard (`continue`); a
not-found pointer leaves the walk start at the zero hash; each shard's
collected messages are built into transactions and recorded. -/
def ShardsLoop (SM : ShardIDModel) (builder : Nat → Nat → Nat → Except String Nat)
    (L : Ledger) (fromShardID : Nat) :
    List (Nat × List (Nat × CrossShardMsg)) → List (Nat × List CrossShardTxInfos) →
    Nat → Option (Except String (List (Nat × List CrossShardTxInfos)))
  | [], acc, _ => some (.ok acc)
  | (sid, m) :: rest, acc, fuel =>
    if SM.newOk sid = false then ShardsLoop SM builder L fromShardID rest acc fuel
    else
      match GetCrossShardHashByShardID L sid with
      | .fail _ => ShardsLoop SM builder L fromShardID rest acc fuel
      | .notFound =>
        match CollectShard L m 0 fuel with
        | none => none
        | some (.error e) => some (.error e)
        | some (.ok msgs) =>
          ShardsLoop SM builder L fromShardID rest
            (acc ++ [(sid, BuildTxs builder fromShardID msgs)]) fuel
      | .ok msgHash =>
        match CollectShard L m msgHash fuel with
        | none => none
        | some (.error e) => some (.error e)
        | some (.ok msgs) =>
          ShardsLoop SM builder L fromShardID rest
            (acc ++ [(sid, BuildTxs builder fromShardID msgs)]) fuel

/-- `GetCrossShardTxs`: merge of parent-shard propagation and the pool's
per-shard forward walks. For a non-root caller: a missing parent ledger or
a not-found parent record returns a nil result with no error at once; a
hard parent read failure or a parent builder failure aborts with an error;
otherwise one parent transaction seeds the result. Then each pool shard is
walked and its batch appended. -/
def GetCrossShardTxs (SM : ShardIDModel)
    (builder : Nat → Nat → Nat → Except String Nat)
    (L : Ledger) (P : CrossShardPool) (FromShardID : Nat) (parentblkNum : Nat)
    (fuel : Nat) : Option (Except String (List (Nat × List CrossShardTxInfos))) :=
  if SM.isRoot FromShardID = false then
    match L.parent with
    | none => some (.ok [])
    | some PL =>
      match PL.GetShardMsgsInBlock (parentblkNum - 1) FromShardID with
      | .fail e => some (.error e)
      | .notFound => some (.ok [])
      | .ok shardMsg =>
        match builder parentblkNum FromShardID shardMsg with
        | .error e => some (.error e)
        | .ok tx =>
          let shardTxInfo : CrossShardTxInfos :=
            { ShardMsg :=
                { FromShardID := SM.parentID FromShardID
                  MsgHeight := parentblkNum
                  PreCrossShardMsgHash := 0
                  CrossShardMsgRoot := 0 }
              Tx := tx }
          ShardsLoop SM builder L FromShardID P.Shards
            [(SM.parentID FromShardID, [shardTxInfo])] fuel
  else ShardsLoop SM builder L FromShardID P.Shards [] fuel

/-- Inner eviction loop of `DelCrossShardTxs` over one shard's delivered
transactions: a shard with no pool entry at all triggers the early
success return (first component `true`); otherwise the entry keyed by the
transaction's `CrossShardMsgRoot` is deleted and the transaction's
`PreCrossShardMsgHash` is persisted as the new pointer, a save failure
being silently dropped. -/
def DelTxsInner (sid : Nat) :
    Ledger → CrossShardPool → List CrossShardTxInfos → Bool × CrossShardPool × Ledger
  | L, P, [] => (false, P, L)
  | L, P, shardTx :: rest =>
    match alookup sid P.Shards with
    | none => (true, P, L)
    | some m =>
      let P' := { P with Shards := ainsert sid (aerase shardTx.ShardMsg.CrossShardMsgRoot m) P.Shards }
      let L' :=
        match SaveCrossShardHash L sid shardTx.ShardMsg.PreCrossShardMsgHash with
        | .ok L1 => L1
        | .error _ => L
      DelTxsInner sid L' P' rest

/-- `DelCrossShardTxs`: evict delivered transactions shard by shard; the
early return raised by a missing shard entry ends the whole call with
success, skipping every remaining transaction and shard. -/
def DelCrossShardTxs (L : Ledger) (P : CrossShardPool) :
    List (Nat × List CrossShardTxInfos) → Except String Unit × CrossShardPool × Ledger
  | [] => (.ok (), P, L)
  | (sid, shardTxs) :: rest =>
    match DelTxsInner sid L P shardTxs with
    | (true, P', L') => (.ok (), P', L')
    | (false, P', L') => DelCrossShardTxs L' P' rest

/-! Helper notions for stating chain-shaped properties. -/

/-- The list of `PreCrossShardMsgHash` keys of a message list. -/
def pres (ms : List CrossShardMsg) : List Nat :=
  ms.map (fun m => m.Info.PreCrossShardMsgHash)

/-- A message list keyed the way the pool stores it: each message under its
own `PreCrossShardMsgHash`. -/
def chainKeyed (ms : List CrossShardMsg) : List (Nat × CrossShardMsg) :=
  ms.map (fun m => (m.Info.PreCrossShardMsgHash, m))

/-- `chainFromB h ms` holds when `ms` is hash-linked starting at `h`: the
first message's `PreCrossShardMsgHash` is `h` and each later message's
`PreCrossShardMsgHash` is its predecessor's `CrossShardMsgRoot`. -/
def chainFromB : Nat → List CrossShardMsg → Bool
  | _, [] => true
  | h, m :: t => (m.Info.PreCrossShardMsgHash == h) && chainFromB m.Info.CrossShardMsgRoot t

/-- The hash a walk along `ms` from `h` ends at: the last message's
`CrossShardMsgRoot`, or `h` itself when `ms` is empty. -/
def endHash (h : Nat) (ms : List CrossShardMsg) : Nat :=
  ms.foldl (fun _ m => m.Info.CrossShardMsgRoot) h

/-- Repeated ingestion: fold `AddCrossShardInfo` over a message list,
threading pool and ledger. -/
def AddAll (L : Ledger) (P : CrossShardPool) : List CrossShardMsg → CrossShardPool × Ledger
  | [] => (P, L)
  | msg :: rest =>
    let r := AddCrossShardInfo L P msg
    AddAll r.2.2 r.2.1 rest

/-! Concrete instances used by counterexamples and witnesses. -/

/-- An empty durable store with no failure injection. -/
def emptyLedger : Ledger :=
  { allShardIDs := .notFound, hashPtrs := [], getHashErrs := [], msgs := []
    getMsgErrs := [], saveMsgFails := [], saveHashFails := []
    saveShardIDsFails := false, parent := none }

/-- A fresh pool for local shard 9 with history cap 16. -/
def basePool : CrossShardPool := InitCrossShardPool 9 16

/-- First message of the two-message chain of §8 of the specification:
from shard 0, `PreCrossShardMsgHash` 1, `CrossShardMsgRoot` 2. -/
def msgA : CrossShardMsg :=
  { Info := { FromShardID := 0, MsgHeight := 10, PreCrossShardMsgHash := 1, CrossShardMsgRoot := 2 }
    ShardMsg := 100 }

/-- Second message of the chain: `PreCrossShardMsgHash` 2,
`CrossShardMsgRoot` 3. -/
def msgB : CrossShardMsg :=
  { Info := { FromShardID := 0, MsgHeight := 11, PreCrossShardMsgHash := 2, CrossShardMsgRoot := 3 }
    ShardMsg := 200 }

/-- A shard-id model where 9 is the root shard and every id is valid. -/
def smRootNine : ShardIDModel :=
  { isRoot := fun n => n == 9, parentID := fun n => n, newOk := fun _ => true }

/-- A shard-id model where no shard is the root. -/
def smNoRoot : ShardIDModel :=
  { isRoot := fun _ => false, parentID := fun n => n + 50, newOk := fun _ => true }

/-- A concrete always-succeeding transaction builder. -/
def bldSum : Nat → Nat → Nat → Except String Nat :=
  fun h f p => .ok (h * 1000 + f * 100 + p)

/-- Pool state after ingesting `msgA` then `msgB` into `basePool` against
`emptyLedger`. -/
def chainPool : CrossShardPool :=
  (AddAll emptyLedger basePool [msgA, msgB]).1

/-- Ledger state after the same two ingestions. -/
def chainLedger : Ledger :=
  (AddAll emptyLedger basePool [msgA, msgB]).2

/-- Store for the divergence input of the recovery walk: two persisted
messages that share the `PreCrossShardMsgHash` 10, pointer at hash 1. -/
def cycMsg1 : CrossShardMsg :=
  { Info := { FromShardID := 0, MsgHeight := 1, PreCrossShardMsgHash := 10, CrossShardMsgRoot := 2 }
    ShardMsg := 0 }

/-- Second message of the divergence input, persisted at hash 2. -/
def cycMsg2 : CrossShardMsg :=
  { Info := { FromShardID := 0, MsgHeight := 2, PreCrossShardMsgHash := 10, CrossShardMsgRoot := 3 }
    ShardMsg := 0 }

/-- The divergence ledger: shard 0 recorded, pointer 0 ↦ 1, messages at
hashes 1 and 2 sharing `PreCrossShardMsgHash` 10. -/
def cycLedger : Ledger :=
  { emptyLedger with
    allShardIDs := .ok [0], hashPtrs := [(0, 1)]
    msgs := [(1, cycMsg1), (2, cycMsg2)] }

/-- Message at hash 1 of the walk-direction input:
`PreCrossShardMsgHash` 10, `CrossShardMsgRoot` 2. -/
def fwMsg1 : CrossShardMsg :=
  { Info := { FromShardID := 0, MsgHeight := 1, PreCrossShardMsgHash := 10, CrossShardMsgRoot := 2 }
    ShardMsg := 0 }

/-- Message at hash 2 of the walk-direction input:
`PreCrossShardMsgHash` 1, `CrossShardMsgRoot` 3. -/
def fwMsg2 : CrossShardMsg :=
  { Info := { FromShardID := 0, MsgHeight := 2, PreCrossShardMsgHash := 1, CrossShardMsgRoot := 3 }
    ShardMsg := 0 }

/-- Message at hash 10 of the walk-direction input (the predecessor the
claimed backward walk would visit): `PreCrossShardMsgHash` 11. -/
def fwMsg0 : CrossShardMsg :=
  { Info := { FromShardID := 0, MsgHeight := 0, PreCrossShardMsgHash := 11, CrossShardMsgRoot := 1 }
    ShardMsg := 0 }

/-- The walk-direction ledger: pointer 0 ↦ 1 with messages at hashes 1, 2
and 10, so the forward walk and the claimed backward walk part ways. -/
def fwLedger : Ledger :=
  { emptyLedger with
    allShardIDs := .ok [0], hashPtrs := [(0, 1)]
    msgs := [(1, fwMsg1), (2, fwMsg2), (10, fwMsg0)] }

/-- The pool as the program builds it on the walk-direction ledger. -/
def fwCodePool : CrossShardPool :=
  { ShardID := 9, Shards := [(0, [(10, fwMsg1), (1, fwMsg2)])],
    MaxBlockCap := 16, ShardInfo := [0] }

/-- The pool the claimed backward walk would build on the same ledger. -/
def fwSpecPool : CrossShardPool :=
  { ShardID := 9, Shards := [(0, [(10, fwMsg1), (11, fwMsg0)])],
    MaxBlockCap := 16, ShardInfo := [0] }

/-- Ledger for the enumeration-stop input: shards 3 and 4 recorded, shard
3 has no pointer, shard 4 has pointer 1 with a recoverable message. -/
def stopLedger : Ledger :=
  { emptyLedger with
    allShardIDs := .ok [3, 4], hashPtrs := [(4, 1)]
    msgs := [(1, fwMsg1)] }

/-- What recovery actually produces on `stopLedger`: only shard 3 marked,
nothing recovered. -/
def stopResultPool : CrossShardPool :=
  { ShardID := 9, Shards := [], MaxBlockCap := 16, ShardInfo := [3] }

/-- Ledger whose save-by-hash operation fails for hash 1. -/
def failSaveLedger : Ledger := { emptyLedger with saveMsgFails := [1] }

/-- A pool holding one pending message for shard 2, used for the
parent-unavailable input. -/
def siblingPool : CrossShardPool :=
  { basePool with Shards := [(2, [(7, msgA)])] }

/-- Ledger with a pointer for shard 2 and no parent ledger. -/
def siblingLedger : Ledger := { emptyLedger with hashPtrs := [(2, 7)] }

/-- Ledger with a parent that has no shard-message record at any height. -/
def siblingLedgerParent : Ledger :=
  { siblingLedger with parent := some { shardMsgs := [], getErrs := [] } }

end XShard

namespace ShardStates

/-- Event type tags from the `shardstates` constant block (iota). -/
def EVENT_SHARD_CREATE : Nat := 0

/-- Event type tag `EVENT_SHARD_CONFIG_UPDATE`. -/
def EVENT_SHARD_CONFIG_UPDATE : Nat := 1

/-- Event type tag `EVENT_SHARD_PEER_JOIN`. -/
def EVENT_SHARD_PEER_JOIN : Nat := 2

/-- Event type tag `EVENT_SHARD_ACTIVATED`. -/
def EVENT_SHARD_ACTIVATED : Nat := 3

/-- Event type tag `EVENT_SHARD_PEER_LEAVE`. -/
def EVENT_SHARD_PEER_LEAVE : Nat := 4

/-- Modelled from the spec: the gas-event tag `EVENT_SHARD_GAS_DEPOSIT` is
declared in a file of this repository outside `src/`; its concrete value is
irrelevant here, only its distinctness from the other gas tags. -/
def EVENT_SHARD_GAS_DEPOSIT : Nat := 5

/-- Modelled from the spec: the gas-event tag
`EVENT_SHARD_GAS_WITHDRAW_REQ`, declared outside `src/`. -/
def EVENT_SHARD_GAS_WITHDRAW_REQ : Nat := 6

/-- Modelled from the spec: the gas-event tag
`EVENT_SHARD_GAS_WITHDRAW_DONE`, declared outside `src/`. -/
def EVENT_SHARD_GAS_WITHDRAW_DONE : Nat := 7

/-- `DecodeShardEvent`: dispatch on the event tag. The two implemented gas
variants run their deserializer (passed in, as `DepositGasEvent` /
`WithdrawGasReqEvent` live outside `src/`) and wrap its failure; the
`WithdrawGasDone` tag returns a nil event with no error; any other tag is
an unknown-event error. Decoded events are opaque (`Nat`). -/
def DecodeShardEvent (desDeposit desWithdrawReq : String → Except String Nat)
    (evtType : Nat) (evtPayload : String) : Except String (Option Nat) :=
  if evtType = EVENT_SHARD_GAS_DEPOSIT then
    match desDeposit evtPayload with
    | .error e => .error ("unmarshal gas deposit evt: " ++ e)
    | .ok evt => .ok (some evt)
  else if evtType = EVENT_SHARD_GAS_WITHDRAW_REQ then
    match desWithdrawReq evtPayload with
    | .error e => .error ("unmarshal gas withdraw req: " ++ e)
    | .ok evt => .ok (some evt)
  else if evtType = EVENT_SHARD_GAS_WITHDRAW_DONE then
    .ok none
  else
    .error ("unknown remote event type: " ++ toString evtType)

/-- Inner loop of `DecodeShardCommonReqs`: deserialize each raw inner
element; the first failure aborts the whole batch with an error naming the
offending element's raw bytes. Decoded requests are opaque (`Nat`), inner
raw bytes are `String`. -/
def DecodeReqsLoop (des : String → Except String Nat) :
    List String → Except String (List Nat)
  | [] => .ok []
  | tx :: rest =>
    match des tx with
    | .error e => .error ("failed to unmarshal req-tx: " ++ e ++ ", " ++ tx)
    | .ok req => (DecodeReqsLoop des rest).map (fun l => req :: l)

/-- `DecodeShardCommonReqs`: unwrap the `_CrossShardTx` container (the
JSON unmarshal and the `CommonShardReq` deserializer live outside `src/`
and are passed in), then deserialize every inner element in order. -/
def DecodeShardCommonReqs (unmarshal : String → Except String (List String))
    (des : String → Except String Nat) (payload : String) :
    Except String (List Nat) :=
  match unmarshal payload with
  | .error e => .error ("failed to unmarshal txs: " ++ e)
  | .ok txs => DecodeReqsLoop des txs

end ShardStates


namespace XShard

/-! Small laws of the association-list operations. -/

theorem alookup_ainsert_self {κ : Type} [DecidableEq κ] {α : Type} (k : κ) (v : α) :
    ∀ l : List (κ × α), alookup k (ainsert k v l) = some v
  | [] => by simp [ainsert, alookup]
  | (k', v') :: t => by
    by_cases h : k = k'
    · simp [ainsert, h, alookup]
    · simp [ainsert, h, alookup, alookup_ainsert_self k v t]

theorem alookup_ainsert_ne {κ : Type} [DecidableEq κ] {α : Type} {k k2 : κ} (v : α)
    (hne : k ≠ k2) : ∀ l : List (κ × α), alookup k (ainsert k2 v l) = alookup k l
  | [] => by simp [ainsert, alookup, hne]
  | (k', v') :: t => by
    by_cases h : k2 = k'
    · subst h; simp [ainsert, alookup, hne]
    · by_cases h2 : k = k'
      · simp [ainsert, h, alookup, h2]
      · simp [ainsert, h, alookup, h2, alookup_ainsert_ne v hne t]

theorem ainsert_eq_append {κ : Type} [DecidableEq κ] {α : Type} {k : κ} (v : α) :
    ∀ {l : List (κ × α)}, alookup k l = none → ainsert k v l = l ++ [(k, v)]
  | [], _ => rfl
  | (k', v') :: t, h => by
    by_cases hk : k = k'
    · simp [alookup, hk] at h
    · simp only [alookup, if_neg hk] at h
      simp [ainsert, hk, ainsert_eq_append v h]

theorem ainsert_ainsert {κ : Type} [DecidableEq κ] {α : Type} (k : κ) (v w : α) :
    ∀ l : List (κ × α), ainsert k v (ainsert k w l) = ainsert k v l
  | [] => by simp [ainsert]
  | (k', v') :: t => by
    by_cases h : k = k'
    · simp [ainsert, h]
    · simp [ainsert, h, ainsert_ainsert k v w t]

theorem ainsert_self {κ : Type} [DecidableEq κ] {α : Type} {k : κ} {v : α} :
    ∀ {l : List (κ × α)}, alookup k l = some v → ainsert k v l = l
  | [], h => by simp [alookup] at h
  | (k', v') :: t, h => by
    by_cases hk : k = k'
    · simp only [alookup, if_pos hk] at h
      obtain rfl : v' = v := by injection h
      simp [ainsert, hk]
    · simp only [alookup, if_neg hk] at h
      simp [ainsert, hk, ainsert_self h]

theorem alookup_append_none {κ : Type} [DecidableEq κ] {α : Type} {k : κ} {l2 : List (κ × α)} :
    ∀ {l1 : List (κ × α)}, alookup k l1 = none → alookup k (l1 ++ l2) = alookup k l2
  | [], _ => rfl
  | (k', v') :: t, h => by
    by_cases hk : k = k'
    · simp [alookup, hk] at h
    · simp only [alookup, if_neg hk] at h
      simp [alookup, hk, alookup_append_none h]

/-! Laws of the chain helpers. -/

theorem alookup_chainKeyed_of_mem {ms : List CrossShardMsg} {x : CrossShardMsg}
    (hnd : (pres ms).Nodup) (hx : x ∈ ms) :
    alookup x.Info.PreCrossShardMsgHash (chainKeyed ms) = some x := by
  induction ms with
  | nil => cases hx
  | cons y t ih =>
    simp only [pres, List.map_cons, List.nodup_cons] at hnd
    rcases List.mem_cons.mp hx with h | h
    · subst h
      simp [chainKeyed, alookup]
    · have hne : x.Info.PreCrossShardMsgHash ≠ y.Info.PreCrossShardMsgHash := by
        intro he
        exact hnd.1 (he ▸ List.mem_map.mpr ⟨x, h, rfl⟩)
      simpa [chainKeyed, alookup, hne] using ih hnd.2 h

theorem alookup_chainKeyed_eq_none {ms : List CrossShardMsg} {k : Nat}
    (hk : k ∉ pres ms) : alookup k (chainKeyed ms) = none := by
  induction ms with
  | nil => rfl
  | cons y t ih =>
    simp only [pres, List.map_cons, List.mem_cons, not_or] at hk
    simpa [chainKeyed, alookup, hk.1] using ih hk.2

/-- Claim C8: when `DelCrossShardTxs` meets, while iterating, a source
shard that has no pool entry at all, the whole operation returns success
immediately with pool and ledger as they stand, skipping the remaining
transactions of that shard and every remaining shard of the input. -/
theorem c8_del_missing_shard_short_circuit (L : Ledger) (P : CrossShardPool)
    (sid : Nat) (tx : CrossShardTxInfos) (txs : List CrossShardTxInfos)
    (rest : List (Nat × List CrossShardTxInfos))
    (habs : alookup sid P.Shards = none) :
    DelCrossShardTxs L P ((sid, tx :: txs) :: rest) = (.ok (), P, L) := by
  simp [DelCrossShardTxs, DelTxsInner, habs]

theorem c8_del_missing_shard_short_circuit_witness :
    alookup 2 basePool.Shards = none ∧
    DelCrossShardTxs emptyLedger basePool
      [(2, [{ ShardMsg := msgA.Info, Tx := 0 }]), (0, [{ ShardMsg := msgB.Info, Tx := 1 }])] =
      (.ok (), basePool, emptyLedger) :=
  ⟨by decide,
   c8_del_missing_shard_short_circuit emptyLedger basePool 2
     { ShardMsg := msgA.Info, Tx := 0 } [] [(0, [{ ShardMsg := msgB.Info, Tx := 1 }])]
     (by decide)⟩

/-- Claim C4 is refuted at a concrete input: a non-root caller with no
parent ledger gets back an empty result even though the pool holds a
pending sibling-shard message, so the sibling batches are not returned. -/
theorem c4_parent_unavailable_counterexample :
    GetCrossShardTxs smNoRoot bldSum siblingLedger siblingPool 5 3 10 = some (.ok []) ∧
    alookup 2 siblingPool.Shards = some [(7, msgA)] := by
  exact ⟨by decide, by decide⟩

/-- Claim C4 (amended): for a non-root caller, when the parent ledger is
unavailable, or the parent has no shard-message record at
parentBlockHeight - 1, `GetCrossShardTxs` returns immediately with an
empty result and no error; the sibling/other-shard chains of the pool are
not collected at all. -/
theorem c4_parent_unavailable_short_circuit (SM : ShardIDModel)
    (builder : Nat → Nat → Nat → Except String Nat) (L : Ledger)
    (P : CrossShardPool) (f blk fuel : Nat) (hroot : SM.isRoot f = false) :
    (L.parent = none →
      GetCrossShardTxs SM builder L P f blk fuel = some (.ok [])) ∧
    (∀ PL, L.parent = some PL →
      PL.GetShardMsgsInBlock (blk - 1) f = .notFound →
      GetCrossShardTxs SM builder L P f blk fuel = some (.ok [])) := by
  constructor
  · intro hp
    simp [GetCrossShardTxs, hroot, hp]
  · intro PL hp hnf
    simp [GetCrossShardTxs, hroot, hp, hnf]

theorem c4_parent_unavailable_witness :
    smNoRoot.isRoot 5 = false ∧
    GetCrossShardTxs smNoRoot bldSum siblingLedger siblingPool 5 3 10 = some (.ok []) ∧
    GetCrossShardTxs smNoRoot bldSum siblingLedgerParent siblingPool 5 3 10 = some (.ok []) :=
  ⟨by decide,
   (c4_parent_unavailable_short_circuit smNoRoot bldSum siblingLedger siblingPool 5 3 10
     (by decide)).1 (by decide),
   (c4_parent_unavailable_short_circuit smNoRoot bldSum siblingLedgerParent siblingPool 5 3 10
     (by decide)).2 { shardMsgs := [], getErrs := [] } (by decide) (by decide)⟩

/-- Claim C5 is refuted at a concrete input: when persisting fails, the
call returns an error, yet the message is observable in the per-shard
in-memory map afterwards. -/
theorem c5_failed_persist_counterexample :
    (AddCrossShardInfo failSaveLedger basePool msgA).1 =
      .error "SaveCrossShardMsgByHash: store failure" ∧
    alookup 1 ((alookup 0 (AddCrossShardInfo failSaveLedger basePool msgA).2.1.Shards).getD []) =
      some msgA := by
  exact ⟨by decide, by decide⟩

/-- Claim C5 (amended): if persisting the message by its
`PreCrossShardMsgHash` key fails, `AddCrossShardInfo` returns an error and
the durable store is unchanged, but the in-memory insertion — performed
before the persist attempt — is not rolled back: the message remains
observable in the per-shard map. -/
theorem c5_failed_persist_leaves_message (L : Ledger) (P : CrossShardPool)
    (msg : CrossShardMsg)
    (hfail : msg.Info.PreCrossShardMsgHash ∈ L.saveMsgFails)
    (habsent : alookup msg.Info.PreCrossShardMsgHash
      ((alookup msg.Info.FromShardID P.Shards).getD []) = none) :
    (AddCrossShardInfo L P msg).1 = .error "SaveCrossShardMsgByHash: store failure" ∧
    alookup msg.Info.PreCrossShardMsgHash
      ((alookup msg.Info.FromShardID (AddCrossShardInfo L P msg).2.1.Shards).getD []) =
      some msg ∧
    (AddCrossShardInfo L P msg).2.2 = L := by
  cases hP : alookup msg.Info.FromShardID P.Shards with
  | none =>
    simp only [AddCrossShardInfo, hP, Option.isSome_none, Bool.false_eq_true, if_false,
      alookup_ainsert_self, Option.getD_some, alookup, Option.isSome_none,
      Ledger.SaveCrossShardMsgByHash, if_pos hfail]
    simp [alookup_ainsert_self]
  | some m =>
    have hm : alookup msg.Info.PreCrossShardMsgHash m = none := by
      simpa [hP] using habsent
    simp only [AddCrossShardInfo, hP, Option.isSome_some, if_true, Option.getD_some, hm,
      Option.isSome_none, Bool.false_eq_true, if_false,
      Ledger.SaveCrossShardMsgByHash, if_pos hfail]
    simp [alookup_ainsert_self]

theorem c5_failed_persist_witness :
    (1 ∈ failSaveLedger.saveMsgFails ∧
      alookup 1 ((alookup 0 basePool.Shards).getD []) = none) ∧
    ((AddCrossShardInfo failSaveLedger basePool msgA).1 =
        .error "SaveCrossShardMsgByHash: store failure" ∧
      alookup 1 ((alookup 0 (AddCrossShardInfo failSaveLedger basePool msgA).2.1.Shards).getD []) =
        some msgA ∧
      (AddCrossShardInfo failSaveLedger basePool msgA).2.2 = failSaveLedger) :=
  ⟨⟨by decide, by decide⟩,
   c5_failed_persist_leaves_message failSaveLedger basePool msgA (by decide) (by decide)⟩

/-- Claim C6 is refuted at a concrete input: the ledger records shards 3
and 4, shard 3 has no persisted pointer, and recovery returns with only
shard 3 marked — shard 4 is neither marked known nor recovered. -/
theorem c6_unmarked_shard_counterexample :
    stopLedger.allShardIDs = .ok [3, 4] ∧
    InitShardInfo stopLedger basePool 10 = some (.ok stopResultPool) ∧
    4 ∉ stopResultPool.ShardInfo ∧
    alookup 4 stopResultPool.Shards = none := by
  refine ⟨by decide, by decide, by decide, by decide⟩

/-- Claim C6 (amended): `InitShardInfo` marks shard ids in enumeration
order; the first shard whose persisted pointer lookup is not-found is
still marked, but the enumeration then stops and the call returns success,
leaving every later shard id unmarked and unrecovered. -/
theorem c6_missing_pointer_stops_enumeration (L : Ledger) (P : CrossShardPool)
    (fuel sid : Nat) (rest : List Nat)
    (hids : L.allShardIDs = .ok (sid :: rest))
    (hptr : GetCrossShardHashByShardID L sid = .notFound) :
    InitShardInfo L P fuel =
      some (.ok { P with ShardInfo :=
        if sid ∈ P.ShardInfo then P.ShardInfo else P.ShardInfo ++ [sid] }) := by
  simp [InitShardInfo, hids, InitShardsLoop, hptr]

theorem c6_missing_pointer_witness :
    (stopLedger.allShardIDs = .ok ([3] ++ [4]) ∧
      GetCrossShardHashByShardID stopLedger 3 = .notFound) ∧
    InitShardInfo stopLedger basePool 10 =
      some (.ok { basePool with ShardInfo :=
        if 3 ∈ basePool.ShardInfo then basePool.ShardInfo else basePool.ShardInfo ++ [3] }) :=
  ⟨⟨by decide, by decide⟩,
   c6_missing_pointer_stops_enumeration stopLedger basePool 10 3 [4] (by decide) (by decide)⟩

end XShard

namespace ShardStates

theorem decodeReqsLoop_all_ok (des : String → Except String Nat) (D : String → Nat) :
    ∀ txs : List String, (∀ tx ∈ txs, des tx = .ok (D tx)) →
      DecodeReqsLoop des txs = .ok (txs.map D)
  | [], _ => rfl
  | tx :: rest, h => by
    have h1 : des tx = .ok (D tx) := h tx (by simp)
    have h2 := decodeReqsLoop_all_ok des D rest (fun x hx => h x (by simp [hx]))
    simp [DecodeReqsLoop, h1, h2, Except.map]

theorem decodeReqsLoop_first_err (des : String → Except String Nat) (D : String → Nat)
    (bad : String) (rest : List String) (e : String) (hbad : des bad = .error e) :
    ∀ good : List String, (∀ tx ∈ good, des tx = .ok (D tx)) →
      DecodeReqsLoop des (good ++ bad :: rest) =
        .error ("failed to unmarshal req-tx: " ++ e ++ ", " ++ bad)
  | [], _ => by simp [DecodeReqsLoop, hbad]
  | g :: good', h => by
    have h1 : des g = .ok (D g) := h g (by simp)
    have h2 := decodeReqsLoop_first_err des D bad rest e hbad good'
      (fun x hx => h x (by simp [hx]))
    simp [DecodeReqsLoop, h1, h2, Except.map]

/-- Claim C9: `DecodeShardCommonReqs` is all-or-nothing over the inner
elements of the container: if every inner element parses, the full ordered
sequence of decoded requests is returned; if any inner element fails to
parse, the whole call fails with an error naming that element's raw bytes
and no partial list is returned. -/
theorem c9_decode_common_reqs_all_or_nothing
    (unmarshal : String → Except String (List String))
    (des : String → Except String Nat) (D : String → Nat)
    (payload : String) (txs : List String)
    (hun : unmarshal payload = .ok txs) :
    ((∀ tx ∈ txs, des tx = .ok (D tx)) →
      DecodeShardCommonReqs unmarshal des payload = .ok (txs.map D)) ∧
    (∀ good bad rest e, txs = good ++ bad :: rest →
      (∀ tx ∈ good, des tx = .ok (D tx)) → des bad = .error e →
      DecodeShardCommonReqs unmarshal des payload =
        .error ("failed to unmarshal req-tx: " ++ e ++ ", " ++ bad)) := by
  constructor
  · intro hall
    simp [DecodeShardCommonReqs, hun, decodeReqsLoop_all_ok des D txs hall]
  · intro good bad rest e hsplit hgood hbad
    subst hsplit
    simp [DecodeShardCommonReqs, hun, decodeReqsLoop_first_err des D bad rest e hbad good hgood]

/-- Concrete inner deserializer for witnesses: fails on the element "x". -/
theorem c9_decode_common_reqs_witness :
    ((fun _ : String => (Except.ok ["a", "x", "b"] : Except String (List String))) "p" =
      .ok ["a", "x", "b"]) ∧
    DecodeShardCommonReqs (fun _ => .ok ["a", "x", "b"])
      (fun s => if s = "x" then .error "boom" else .ok 1) "p" =
      .error ("failed to unmarshal req-tx: " ++ "boom" ++ ", " ++ "x") ∧
    DecodeShardCommonReqs (fun _ => .ok ["a", "b"])
      (fun s => if s = "x" then .error "boom" else .ok 1) "p" =
      .ok (["a", "b"].map (fun _ => 1)) :=
  ⟨rfl,
   (c9_decode_common_reqs_all_or_nothing (fun _ => .ok ["a", "x", "b"])
      (fun s => if s = "x" then .error "boom" else .ok 1) (fun _ => 1) "p"
      ["a", "x", "b"] rfl).2 ["a"] "x" ["b"] "boom" rfl (by decide) (by decide),
   (c9_decode_common_reqs_all_or_nothing (fun _ => .ok ["a", "b"])
      (fun s => if s = "x" then .error "boom" else .ok 1) (fun _ => 1) "p"
      ["a", "b"] rfl).1 (by decide)⟩

/-- Claim C10: `DecodeShardEvent` with a tag that is none of the three gas
tags returns a decode error, never a nil/ok result, and with the
`WithdrawGasDone` tag returns a nil event and no error for every payload. -/
theorem c10_decode_event_dispatch (d1 d2 : String → Except String Nat) :
    (∀ t p, t ≠ EVENT_SHARD_GAS_DEPOSIT → t ≠ EVENT_SHARD_GAS_WITHDRAW_REQ →
      t ≠ EVENT_SHARD_GAS_WITHDRAW_DONE →
      DecodeShardEvent d1 d2 t p = .error ("unknown remote event type: " ++ toString t)) ∧
    (∀ p, DecodeShardEvent d1 d2 EVENT_SHARD_GAS_WITHDRAW_DONE p = .ok none) := by
  constructor
  · intro t p h1 h2 h3
    simp [DecodeShardEvent, h1, h2, h3]
  · intro p
    simp [DecodeShardEvent, EVENT_SHARD_GAS_WITHDRAW_DONE, EVENT_SHARD_GAS_DEPOSIT,
      EVENT_SHARD_GAS_WITHDRAW_REQ]

theorem c10_decode_event_dispatch_witness :
    ((9999 : Nat) ≠ EVENT_SHARD_GAS_DEPOSIT ∧ (9999 : Nat) ≠ EVENT_SHARD_GAS_WITHDRAW_REQ ∧
      (9999 : Nat) ≠ EVENT_SHARD_GAS_WITHDRAW_DONE) ∧
    DecodeShardEvent (fun _ => .ok 0) (fun _ => .ok 0) 9999 "payload" =
      .error ("unknown remote event type: " ++ toString (9999 : Nat)) ∧
    DecodeShardEvent (fun _ => .ok 0) (fun _ => .ok 0) EVENT_SHARD_GAS_WITHDRAW_DONE "payload" =
      .ok none :=
  ⟨⟨by decide, by decide, by decide⟩,
   (c10_decode_event_dispatch (fun _ => .ok 0) (fun _ => .ok 0)).1 9999 "payload"
     (by decide) (by decide) (by decide),
   (c10_decode_event_dispatch (fun _ => .ok 0) (fun _ => .ok 0)).2 "payload"⟩

end ShardStates

namespace XShard

theorem c2_walk_stuck_lemma :
    ∀ n, InitWalk cycLedger 0 n [(0, [(10, cycMsg1)])] 2 = none := by
  intro n
  induction n with
  | zero => rfl
  | succ k ih => exact ih

theorem c2_outer_unfold (k : Nat) :
    InitShardInfo cycLedger basePool (k + 1) =
      match InitWalk cycLedger 0 (k + 1) [] 1 with
      | none => none
      | some (.error e) => some (.error e)
      | some (.ok shards') =>
        InitShardsLoop cycLedger []
          { basePool with ShardInfo := [0], Shards := shards' } (k + 1) := rfl

/-- Claim C2 is refuted by the code: on a durable store holding two
messages that share a `PreCrossShardMsgHash` (hashes 1 and 2, both with
predecessor hash 10), the walk reaches a state where the fetched message
is already present in the in-memory map, and the `continue` leaves both
the map and the current hash unchanged, so the walk never stops: for
every fuel bound, `InitShardInfo` exhausts it. -/
theorem c2_recovery_walk_diverges :
    ∀ fuel, InitShardInfo cycLedger basePool fuel = none := by
  intro fuel
  cases fuel with
  | zero => rfl
  | succ k =>
    have h : InitWalk cycLedger 0 (k + 1) [] 1 = none := c2_walk_stuck_lemma k
    rw [c2_outer_unfold k, h]

end XShard

namespace XShard

theorem addShardInfo_effects (L : Ledger) (P : CrossShardPool) (sid : Nat) :
    (AddShardInfo L P sid).1.Shards = P.Shards ∧
    (AddShardInfo L P sid).2.saveMsgFails = L.saveMsgFails ∧
    (AddShardInfo L P sid).2.getHashErrs = L.getHashErrs ∧
    (AddShardInfo L P sid).2.saveHashFails = L.saveHashFails := by
  unfold AddShardInfo Ledger.SaveAllShardIDs
  by_cases h : sid ∈ P.ShardInfo
  · simp [h]
  · by_cases hs : L.saveShardIDsFails
    · simp [h, hs]
    · simp [h, hs]

theorem addCrossShardInfo_fresh (L : Ledger) (P : CrossShardPool) (msg : CrossShardMsg)
    (hsave : msg.Info.PreCrossShardMsgHash ∉ L.saveMsgFails)
    (hgh : msg.Info.FromShardID ∉ L.getHashErrs)
    (hsh : msg.Info.FromShardID ∉ L.saveHashFails)
    (habsent : alookup msg.Info.PreCrossShardMsgHash
      ((alookup msg.Info.FromShardID P.Shards).getD []) = none) :
    (AddCrossShardInfo L P msg).1 = .ok () ∧
    alookup msg.Info.FromShardID (AddCrossShardInfo L P msg).2.1.Shards =
      some (((alookup msg.Info.FromShardID P.Shards).getD []) ++
        [(msg.Info.PreCrossShardMsgHash, msg)]) ∧
    (AddCrossShardInfo L P msg).2.2.saveMsgFails = L.saveMsgFails ∧
    (AddCrossShardInfo L P msg).2.2.getHashErrs = L.getHashErrs ∧
    (AddCrossShardInfo L P msg).2.2.saveHashFails = L.saveHashFails := by
  cases hP : alookup msg.Info.FromShardID P.Shards with
  | none =>
    simp only [AddCrossShardInfo, hP, Option.isSome_none, Bool.false_eq_true, if_false,
      alookup_ainsert_self, Option.getD_some, Option.getD_none,
      Ledger.SaveCrossShardMsgByHash, if_neg hsave, GetCrossShardHashByShardID,
      Ledger.GetCrossShardHash, if_neg hgh]
    cases hptr : alookup msg.Info.FromShardID L.hashPtrs with
    | none =>
      simp only [SaveCrossShardHash, Ledger.SaveCrossShardHashStore, if_neg hsh]
      simp [addShardInfo_effects, ainsert_ainsert, alookup_ainsert_self, ainsert, alookup]
    | some h0 =>
      simp [addShardInfo_effects, ainsert_ainsert, alookup_ainsert_self, ainsert, alookup]
  | some m =>
    have hm : alookup msg.Info.PreCrossShardMsgHash m = none := by
      simpa [hP] using habsent
    simp only [AddCrossShardInfo, hP, Option.isSome_some, if_true, Option.getD_some, hm,
      Option.isSome_none, Bool.false_eq_true, if_false,
      Ledger.SaveCrossShardMsgByHash, if_neg hsave, GetCrossShardHashByShardID,
      Ledger.GetCrossShardHash, if_neg hgh]
    cases hptr : alookup msg.Info.FromShardID L.hashPtrs with
    | none =>
      simp only [SaveCrossShardHash, Ledger.SaveCrossShardHashStore, if_neg hsh]
      simp [addShardInfo_effects, alookup_ainsert_self, ainsert_eq_append (v := msg) hm, hm, alookup]
    | some h0 =>
      simp [addShardInfo_effects, alookup_ainsert_self, ainsert_eq_append (v := msg) hm, hm, alookup]

theorem addCrossShardInfo_present (L : Ledger) (P : CrossShardPool) (msg : CrossShardMsg)
    (hpres : (alookup msg.Info.PreCrossShardMsgHash
      ((alookup msg.Info.FromShardID P.Shards).getD [])).isSome = true) :
    AddCrossShardInfo L P msg = (.ok (), P, L) := by
  cases hP : alookup msg.Info.FromShardID P.Shards with
  | none => simp [hP, alookup] at hpres
  | some m =>
    simp only [hP, Option.getD_some] at hpres
    simp [AddCrossShardInfo, hP, hpres]

theorem c7_count_aux (s : Nat) :
    ∀ (msgs : List CrossShardMsg) (L : Ledger) (P : CrossShardPool),
      (∀ x ∈ msgs, x.Info.FromShardID = s) →
      (pres msgs).Nodup →
      (∀ x ∈ msgs, x.Info.PreCrossShardMsgHash ∉ L.saveMsgFails) →
      s ∉ L.getHashErrs → s ∉ L.saveHashFails →
      (∀ x ∈ msgs, alookup x.Info.PreCrossShardMsgHash
        ((alookup s P.Shards).getD []) = none) →
      ((alookup s (AddAll L P msgs).1.Shards).getD []).length =
        ((alookup s P.Shards).getD []).length + msgs.length
  | [], L, P, _, _, _, _, _, _ => by simp [AddAll]
  | x :: rest, L, P, hfrom, hnd, hsave, hgh, hsh, habs => by
    have hxfrom : x.Info.FromShardID = s := hfrom x (by simp)
    have hx : alookup x.Info.PreCrossShardMsgHash ((alookup s P.Shards).getD []) = none :=
      habs x (by simp)
    obtain ⟨hok, hmap, e1, e2, e3⟩ := addCrossShardInfo_fresh L P x
      (hsave x (by simp)) (hxfrom ▸ hgh) (hxfrom ▸ hsh) (by rw [hxfrom]; exact hx)
    rw [hxfrom] at hmap
    simp only [pres, List.map_cons, List.nodup_cons] at hnd
    have hrest := c7_count_aux s rest (AddCrossShardInfo L P x).2.2 (AddCrossShardInfo L P x).2.1
      (fun y hy => hfrom y (by simp [hy]))
      hnd.2
      (fun y hy => by rw [e1]; exact hsave y (by simp [hy]))
      (by rw [e2]; exact hgh)
      (by rw [e3]; exact hsh)
      (fun y hy => by
        rw [hmap, Option.getD_some]
        have hy0 : alookup y.Info.PreCrossShardMsgHash ((alookup s P.Shards).getD []) = none :=
          habs y (by simp [hy])
        have hyne : y.Info.PreCrossShardMsgHash ≠ x.Info.PreCrossShardMsgHash := by
          intro he
          exact hnd.1 (he ▸ List.mem_map.mpr ⟨y, hy, rfl⟩)
        rw [alookup_append_none hy0]
        simp [alookup, hyne])
    calc ((alookup s (AddAll L P (x :: rest)).1.Shards).getD []).length
        = ((alookup s (AddAll (AddCrossShardInfo L P x).2.2
            (AddCrossShardInfo L P x).2.1 rest).1.Shards).getD []).length := by
          simp [AddAll]
      _ = ((alookup s (AddCrossShardInfo L P x).2.1.Shards).getD []).length + rest.length :=
          hrest
      _ = ((alookup s P.Shards).getD []).length + (x :: rest).length := by
          simp only [hmap, Option.getD_some, List.length_append, List.length_cons,
            List.length_nil]
          omega

/-- Claim C7: for every sequence of `AddCrossShardInfo` calls carrying
distinct `PreCrossShardMsgHash` values for one source shard (against a
store whose saves succeed), the per-shard entry count afterwards equals
the number of messages inserted; and a call whose `PreCrossShardMsgHash`
is already present in that shard's map is a no-op that returns success and
leaves both the pool and the durable store untouched (no re-persisting). -/
theorem c7_add_count_and_idempotence :
    (∀ (s : Nat) (msgs : List CrossShardMsg) (L : Ledger) (P : CrossShardPool),
      (∀ x ∈ msgs, x.Info.FromShardID = s) →
      (pres msgs).Nodup →
      (∀ x ∈ msgs, x.Info.PreCrossShardMsgHash ∉ L.saveMsgFails) →
      s ∉ L.getHashErrs → s ∉ L.saveHashFails →
      alookup s P.Shards = none →
      ((alookup s (AddAll L P msgs).1.Shards).getD []).length = msgs.length) ∧
    (∀ (L : Ledger) (P : CrossShardPool) (msg : CrossShardMsg),
      (alookup msg.Info.PreCrossShardMsgHash
        ((alookup msg.Info.FromShardID P.Shards).getD [])).isSome = true →
      AddCrossShardInfo L P msg = (.ok (), P, L)) := by
  constructor
  · intro s msgs L P hfrom hnd hsave hgh hsh hempty
    have h := c7_count_aux s msgs L P hfrom hnd hsave hgh hsh
      (fun x _ => by simp [hempty, alookup])
    simpa [hempty] using h
  · exact addCrossShardInfo_present

theorem c7_add_count_and_idempotence_witness :
    (((∀ x ∈ [msgA, msgB], x.Info.FromShardID = 0) ∧ (pres [msgA, msgB]).Nodup ∧
        alookup 0 basePool.Shards = none) ∧
      ((alookup 0 (AddAll emptyLedger basePool [msgA, msgB]).1.Shards).getD []).length =
        [msgA, msgB].length) ∧
    ((alookup 1 ((alookup 0 chainPool.Shards).getD [])).isSome = true ∧
      AddCrossShardInfo chainLedger chainPool msgA = (.ok (), chainPool, chainLedger)) :=
  ⟨⟨⟨by decide, by decide, by decide⟩,
    c7_add_count_and_idempotence.1 0 [msgA, msgB] emptyLedger basePool
      (by decide) (by decide) (by decide) (by decide) (by decide) (by decide)⟩,
   ⟨by decide,
    c7_add_count_and_idempotence.2 chainLedger chainPool msgA (by decide)⟩⟩

end XShard

namespace XShard

theorem initWalk_chain (L : Ledger) (sid : Nat) :
    ∀ (ms : List CrossShardMsg) (h : Nat)
      (shards : List (Nat × List (Nat × CrossShardMsg))) (m0 : List (Nat × CrossShardMsg)),
      alookup sid shards = some m0 →
      chainFromB h ms = true →
      (∀ x ∈ ms, L.GetCrossShardMsgByHash x.Info.PreCrossShardMsgHash = .ok x) →
      L.GetCrossShardMsgByHash (endHash h ms) = .notFound →
      (pres ms).Nodup →
      (∀ x ∈ ms, alookup x.Info.PreCrossShardMsgHash m0 = none) →
      ∀ fuel, ms.length < fuel →
      InitWalk L sid fuel shards h = some (.ok (ainsert sid (m0 ++ chainKeyed ms) shards))
  | [], h, shards, m0, hs, _, _, hterm, _, _, fuel, hfuel => by
    cases fuel with
    | zero => omega
    | succ k =>
      simp only [endHash, List.foldl_nil] at hterm
      simp [InitWalk, hterm, chainKeyed, ainsert_self hs]
  | x :: t, h, shards, m0, hs, hch, hstore, hterm, hnd, habs, fuel, hfuel => by
    cases fuel with
    | zero => omega
    | succ k =>
      simp only [chainFromB, Bool.and_eq_true, beq_iff_eq] at hch
      obtain ⟨hpre, hch'⟩ := hch
      have hget : L.GetCrossShardMsgByHash h = .ok x := hpre ▸ hstore x (by simp)
      have hx0 : alookup x.Info.PreCrossShardMsgHash m0 = none := habs x (by simp)
      simp only [pres, List.map_cons, List.nodup_cons] at hnd
      have hterm' : L.GetCrossShardMsgByHash (endHash x.Info.CrossShardMsgRoot t) = .notFound := by
        simpa [endHash] using hterm
      have habs' : ∀ y ∈ t,
          alookup y.Info.PreCrossShardMsgHash (ainsert x.Info.PreCrossShardMsgHash x m0) = none := by
        intro y hy
        have hyne : y.Info.PreCrossShardMsgHash ≠ x.Info.PreCrossShardMsgHash := by
          intro he
          exact hnd.1 (he ▸ List.mem_map.mpr ⟨y, hy, rfl⟩)
        rw [ainsert_eq_append (v := x) hx0, alookup_append_none (habs y (by simp [hy]))]
        simp [alookup, hyne]
      have ih := initWalk_chain L sid t x.Info.CrossShardMsgRoot
        (ainsert sid (ainsert x.Info.PreCrossShardMsgHash x m0) shards)
        (ainsert x.Info.PreCrossShardMsgHash x m0)
        (alookup_ainsert_self sid _ shards) hch'
        (fun y hy => hstore y (by simp [hy])) hterm' hnd.2 habs'
        k (by simpa using Nat.lt_of_succ_lt_succ hfuel)
      simp only [InitWalk, hget, hs, Option.isSome_some, if_true, Option.getD_some, hx0,
        Option.isSome_none, Bool.false_eq_true, if_false]
      rw [ih, ainsert_ainsert, ainsert_eq_append (v := x) hx0]
      simp [chainKeyed]

/-- Claim C1 is refuted at a concrete input: on `fwLedger` the recovery
walk advances through `CrossShardMsgRoot` (it stores the message with
`PreCrossShardMsgHash` 1 found at hash 2), not through
`PreCrossShardMsgHash` as claimed (which would instead store the message
with `PreCrossShardMsgHash` 11 found at hash 10); the two walks produce
different per-shard maps. -/
theorem c1_walk_direction_counterexample :
    InitShardInfo fwLedger basePool 10 = some (.ok fwCodePool) ∧
    SpecInitShardInfo fwLedger basePool 10 = some (.ok fwSpecPool) ∧
    alookup 1 ((alookup 0 fwCodePool.Shards).getD []) = some fwMsg2 ∧
    alookup 11 ((alookup 0 fwCodePool.Shards).getD []) = none ∧
    fwCodePool.Shards ≠ fwSpecPool.Shards := by
  refine ⟨by decide, by decide, by decide, by decide, by decide⟩

/-- Claim C1 (amended): the per-shard recovery walk proceeds forward
through the chain: after fetching and inserting the message at the current
hash (keyed by its `PreCrossShardMsgHash`), the current hash is set to
that message's `CrossShardMsgRoot` (the `MessageRoot`), and the walk
continues until a not-found lookup; the resulting in-memory per-shard
entries are exactly the hash-linked chain reachable from the last-consumed
pointer by following `CrossShardMsgRoot` to the first not-found hash. -/
theorem c1_forward_recovery_walk (L : Ledger) (z c sid h : Nat)
    (ms : List CrossShardMsg)
    (hids : L.allShardIDs = .ok [sid])
    (hptr : GetCrossShardHashByShardID L sid = .ok h)
    (hch : chainFromB h ms = true)
    (hstore : ∀ x ∈ ms, L.GetCrossShardMsgByHash x.Info.PreCrossShardMsgHash = .ok x)
    (hterm : L.GetCrossShardMsgByHash (endHash h ms) = .notFound)
    (hnd : (pres ms).Nodup)
    (hne : ms ≠ [])
    (fuel : Nat) (hfuel : ms.length < fuel) :
    InitShardInfo L (InitCrossShardPool z c) fuel =
      some (.ok ⟨z, [(sid, chainKeyed ms)], c, [sid]⟩) := by
  cases ms with
  | nil => exact absurd rfl hne
  | cons x t =>
    cases fuel with
    | zero => omega
    | succ k =>
      simp only [chainFromB, Bool.and_eq_true, beq_iff_eq] at hch
      obtain ⟨hpre, hch'⟩ := hch
      have hget : L.GetCrossShardMsgByHash h = .ok x := hpre ▸ hstore x (by simp)
      simp only [pres, List.map_cons, List.nodup_cons] at hnd
      have hterm' : L.GetCrossShardMsgByHash (endHash x.Info.CrossShardMsgRoot t) = .notFound := by
        simpa [endHash] using hterm
      have habs' : ∀ y ∈ t,
          alookup y.Info.PreCrossShardMsgHash [(x.Info.PreCrossShardMsgHash, x)] = none := by
        intro y hy
        have hyne : y.Info.PreCrossShardMsgHash ≠ x.Info.PreCrossShardMsgHash := by
          intro he
          exact hnd.1 (he ▸ List.mem_map.mpr ⟨y, hy, rfl⟩)
        simp [alookup, hyne]
      have hwalk := initWalk_chain L sid t x.Info.CrossShardMsgRoot
        [(sid, [(x.Info.PreCrossShardMsgHash, x)])] [(x.Info.PreCrossShardMsgHash, x)]
        (by simp [alookup]) hch'
        (fun y hy => hstore y (by simp [hy])) hterm' hnd.2 habs'
        k (by simpa using Nat.lt_of_succ_lt_succ hfuel)
      simp only [InitShardInfo, hids, InitShardsLoop, hptr, InitCrossShardPool]
      simp only [InitWalk, hget, alookup, Option.isSome_none, Bool.false_eq_true, if_false,
        ainsert, Option.getD_some]
      simp only [List.mem_nil_iff, if_false, reduceIte]
      rw [hwalk]
      simp [ainsert, chainKeyed, InitShardsLoop]

theorem c1_forward_recovery_walk_witness :
    (chainLedger.allShardIDs = .ok [0] ∧
      GetCrossShardHashByShardID chainLedger 0 = .ok 1 ∧
      chainFromB 1 [msgA, msgB] = true ∧
      chainLedger.GetCrossShardMsgByHash (endHash 1 [msgA, msgB]) = .notFound) ∧
    InitShardInfo chainLedger (InitCrossShardPool 9 16) 10 =
      some (.ok ⟨9, [(0, chainKeyed [msgA, msgB])], 16, [0]⟩) :=
  ⟨⟨by decide, by decide, by decide, by decide⟩,
   c1_forward_recovery_walk chainLedger 9 16 0 1 [msgA, msgB]
     (by decide) (by decide) (by decide) (by decide) (by decide) (by decide)
     (by decide) 10 (by decide)⟩

end XShard

namespace XShard

theorem collectShard_chain (L : Ledger) (m : List (Nat × CrossShardMsg)) :
    ∀ (ms : List CrossShardMsg) (h : Nat),
      chainFromB h ms = true →
      (∀ x ∈ ms, alookup x.Info.PreCrossShardMsgHash m = some x) →
      alookup (endHash h ms) m = none →
      L.GetCrossShardMsgByHash (endHash h ms) = .notFound →
      ∀ fuel, ms.length < fuel →
      CollectShard L m h fuel = some (.ok ms)
  | [], h, _, _, hnone, hterm, fuel, hfuel => by
    cases fuel with
    | zero => omega
    | succ k =>
      simp only [endHash, List.foldl_nil] at hnone hterm
      simp [CollectShard, hnone, hterm]
  | x :: t, h, hch, hmem, hnone, hterm, fuel, hfuel => by
    cases fuel with
    | zero => omega
    | succ k =>
      simp only [chainFromB, Bool.and_eq_true, beq_iff_eq] at hch
      obtain ⟨hpre, hch'⟩ := hch
      have hx : alookup h m = some x := hpre ▸ hmem x (by simp)
      have ih := collectShard_chain L m t x.Info.CrossShardMsgRoot hch'
        (fun y hy => hmem y (by simp [hy]))
        (by simpa [endHash] using hnone) (by simpa [endHash] using hterm)
        k (by simpa using Nat.lt_of_succ_lt_succ hfuel)
      simp [CollectShard, hx, ih, Except.map]

theorem buildTxs_total (B : Nat → Nat → Nat → Nat) (f : Nat) :
    ∀ ms : List CrossShardMsg,
      BuildTxs (fun a b c => .ok (B a b c)) f ms =
        ms.map (fun msg => ⟨msg.Info, B msg.Info.MsgHeight f msg.ShardMsg⟩)
  | [] => rfl
  | msg :: rest => by
    simp [BuildTxs, buildTxs_total B f rest]

theorem delTxsInner_run (sid : Nat) :
    ∀ (txs : List CrossShardTxInfos) (L : Ledger) (P : CrossShardPool)
      (mm : List (Nat × CrossShardMsg)),
      alookup sid P.Shards = some mm →
      sid ∉ L.saveHashFails →
      ∃ P' L', DelTxsInner sid L P txs = (false, P', L') ∧
        alookup sid P'.Shards =
          some (txs.foldl (fun acc tx => aerase tx.ShardMsg.CrossShardMsgRoot acc) mm) ∧
        (match txs.getLast? with
          | none => alookup sid L'.hashPtrs = alookup sid L.hashPtrs
          | some tx => alookup sid L'.hashPtrs = some tx.ShardMsg.PreCrossShardMsgHash)
  | [], L, P, mm, hs, _ => ⟨P, L, rfl, by simpa using hs, by simp⟩
  | tx :: rest, L, P, mm, hs, hsh => by
    obtain ⟨P'', L'', e, emap, eptr⟩ := delTxsInner_run sid rest
      { L with hashPtrs := ainsert sid tx.ShardMsg.PreCrossShardMsgHash L.hashPtrs }
      { P with Shards := ainsert sid (aerase tx.ShardMsg.CrossShardMsgRoot mm) P.Shards }
      (aerase tx.ShardMsg.CrossShardMsgRoot mm)
      (alookup_ainsert_self sid _ P.Shards) hsh
    refine ⟨P'', L'', ?_, ?_, ?_⟩
    · simp only [DelTxsInner, hs, SaveCrossShardHash, Ledger.SaveCrossShardHashStore,
        if_neg hsh]
      exact e
    · simpa using emap
    · cases hrest : rest.getLast? with
      | none =>
        have hrest0 : rest = [] := List.getLast?_eq_none_iff.mp hrest
        subst hrest0
        simp only [hrest] at eptr
        simp only [List.getLast?_singleton]
        rw [eptr]
        simp [alookup_ainsert_self]
      | some tx2 =>
        cases rest with
        | nil => simp at hrest
        | cons r rs =>
          simp only [hrest] at eptr
          simpa [List.getLast?_cons_cons, hrest] using eptr

/-- Claim C3 is refuted at a concrete input: after ingesting the
two-message chain and running `GetCrossShardTxs` then `DelCrossShardTxs`
with the exact returned mapping, the pointer does equal the
`PreCrossShardMsgHash` of the last delivered message (hash 2), but the
delivered entries are not exactly removed: eviction deletes by
`CrossShardMsgRoot`, so the first delivered message (keyed by hash 1) is
still in the in-memory map. -/
theorem c3_eviction_counterexample :
    GetCrossShardTxs smRootNine bldSum chainLedger chainPool 9 5 10 =
      some (.ok [(0, [⟨msgA.Info, 11000⟩, ⟨msgB.Info, 12100⟩])]) ∧
    (DelCrossShardTxs chainLedger chainPool
      [(0, [⟨msgA.Info, 11000⟩, ⟨msgB.Info, 12100⟩])]).1 = .ok () ∧
    alookup 1 ((alookup 0 (DelCrossShardTxs chainLedger chainPool
      [(0, [⟨msgA.Info, 11000⟩, ⟨msgB.Info, 12100⟩])]).2.1.Shards).getD []) = some msgA ∧
    alookup 0 (DelCrossShardTxs chainLedger chainPool
      [(0, [⟨msgA.Info, 11000⟩, ⟨msgB.Info, 12100⟩])]).2.2.hashPtrs = some 2 := by
  refine ⟨by decide, by decide, by decide, by decide⟩

/-- Claim C3 (amended): for a pool whose shard holds exactly a hash-linked
chain starting at the persisted pointer, `GetCrossShardTxs` (root-shard
caller) returns that shard's messages oldest-to-newest along the
`CrossShardMsgRoot` chain, one transaction per message; an immediate
`DelCrossShardTxs` with the exact returned mapping leaves the persisted
pointer equal to the `PreCrossShardMsgHash` of the last delivered message,
and removes from the in-memory map the entries keyed by each delivered
message's `CrossShardMsgRoot` — not exactly the delivered entries: in
particular the entry keyed by the initial pointer survives. -/
theorem c3_collect_then_evict (SM : ShardIDModel) (B : Nat → Nat → Nat → Nat)
    (L : Ledger) (P : CrossShardPool) (f blkNum sid h fuel : Nat)
    (ms : List CrossShardMsg)
    (hroot : SM.isRoot f = true)
    (hok : SM.newOk sid = true)
    (hshards : P.Shards = [(sid, chainKeyed ms)])
    (hptr : GetCrossShardHashByShardID L sid = .ok h)
    (hch : chainFromB h ms = true)
    (hnd : (pres ms).Nodup)
    (hend_mem : endHash h ms ∉ pres ms)
    (hend_store : L.GetCrossShardMsgByHash (endHash h ms) = .notFound)
    (hsh : sid ∉ L.saveHashFails)
    (hne : ms ≠ [])
    (hfuel : ms.length < fuel) :
    GetCrossShardTxs SM (fun a b c => .ok (B a b c)) L P f blkNum fuel =
      some (.ok [(sid, ms.map (fun msg => ⟨msg.Info, B msg.Info.MsgHeight f msg.ShardMsg⟩))]) ∧
    ∃ P' L',
      DelCrossShardTxs L P
        [(sid, ms.map (fun msg => ⟨msg.Info, B msg.Info.MsgHeight f msg.ShardMsg⟩))] =
        (.ok (), P', L') ∧
      alookup sid P'.Shards = some
        (ms.foldl (fun acc msg => aerase msg.Info.CrossShardMsgRoot acc) (chainKeyed ms)) ∧
      (∃ lastm, ms.getLast? = some lastm ∧
        alookup sid L'.hashPtrs = some lastm.Info.PreCrossShardMsgHash) := by
  have hcollect := collectShard_chain L (chainKeyed ms) ms h hch
    (fun x hx => alookup_chainKeyed_of_mem hnd hx)
    (alookup_chainKeyed_eq_none hend_mem) hend_store fuel hfuel
  constructor
  · simp only [GetCrossShardTxs, hroot, Bool.true_eq_false, if_false, hshards, ShardsLoop,
      hok, hptr, hcollect]
    simp [buildTxs_total B f ms, ShardsLoop]
  · obtain ⟨P', L', e, emap, eptr⟩ := delTxsInner_run sid
      (ms.map (fun msg => ⟨msg.Info, B msg.Info.MsgHeight f msg.ShardMsg⟩)) L P
      (chainKeyed ms) (by simp [hshards, alookup]) hsh
    refine ⟨P', L', ?_, ?_, ?_⟩
    · simp [DelCrossShardTxs, e]
    · rw [emap, List.foldl_map]
    · obtain ⟨lastm, hlast⟩ := List.getLast?_isSome.mpr hne |> Option.isSome_iff_exists.mp
      refine ⟨lastm, hlast, ?_⟩
      have hmap : (ms.map (fun msg =>
          (⟨msg.Info, B msg.Info.MsgHeight f msg.ShardMsg⟩ : CrossShardTxInfos))).getLast? =
          some ⟨lastm.Info, B lastm.Info.MsgHeight f lastm.ShardMsg⟩ := by
        rw [List.getLast?_map, hlast]
        rfl
      rw [hmap] at eptr
      exact eptr

theorem c3_collect_then_evict_witness :
    (smRootNine.isRoot 9 = true ∧ chainPool.Shards = [(0, chainKeyed [msgA, msgB])] ∧
      GetCrossShardHashByShardID chainLedger 0 = .ok 1 ∧
      chainFromB 1 [msgA, msgB] = true ∧ 0 ∉ chainLedger.saveHashFails) ∧
    (GetCrossShardTxs smRootNine (fun a b c => .ok (a * 1000 + b * 100 + c))
        chainLedger chainPool 9 5 10 =
      some (.ok [(0, [msgA, msgB].map (fun msg =>
        ⟨msg.Info, msg.Info.MsgHeight * 1000 + 9 * 100 + msg.ShardMsg⟩))]) ∧
    ∃ P' L',
      DelCrossShardTxs chainLedger chainPool
        [(0, [msgA, msgB].map (fun msg =>
          ⟨msg.Info, msg.Info.MsgHeight * 1000 + 9 * 100 + msg.ShardMsg⟩))] =
        (.ok (), P', L') ∧
      alookup 0 P'.Shards = some
        ([msgA, msgB].foldl (fun acc msg => aerase msg.Info.CrossShardMsgRoot acc)
          (chainKeyed [msgA, msgB])) ∧
      (∃ lastm, [msgA, msgB].getLast? = some lastm ∧
        alookup 0 L'.hashPtrs = some lastm.Info.PreCrossShardMsgHash)) :=
  ⟨⟨by decide, by decide, by decide, by decide, by decide⟩,
   c3_collect_then_evict smRootNine (fun a b c => a * 1000 + b * 100 + c)
     chainLedger chainPool 9 5 0 1 10 [msgA, msgB]
     (by decide) (by decide) (by decide) (by decide) (by decide) (by decide)
     (by decide) (by decide) (by decide) (by decide) (by decide)⟩

end XShard
